import Mathlib

/-!
# StartHub: the Projects route table

A shallow embedding of `app/routes/projects.server.routes.js` and of the way an
Express 4 application dispatches a request over it.  The route table, the
order of the middleware in every chain and the `projectId` parameter binding
are transcribed from the routes module.  The controller functions the table
refers to live in other modules; they are modelled from the specification and
every such definition says so in its doc comment.
-/

set_option autoImplicit false

namespace StartHub

/-! ## Data model -/

/-- HTTP verbs used by the route table. -/
inductive Method
  | GET | POST | PUT | DELETE
deriving DecidableEq, Repr

/-- The middleware functions the routes module refers to, named
`controller_function` after the JavaScript `controller.function`.  The last
two are the image handlers of the specification's HTTP surface, to which no
route of the module refers. -/
inductive Middleware
  | users_requiresLogin
  | projects_list
  | projects_create
  | projects_read
  | projects_update
  | projects_delete
  | projects_hasAuthorization
  | projects_projectByID
  | comment_create
  | comment_list
  | comment_delete
  | image_store
  | image_fetch
deriving DecidableEq, Repr

/-- A user, identified by its `_id`. -/
structure User where
  _id : String
deriving DecidableEq, Repr

/-- The fields a client submits for a Project. -/
structure Payload where
  title : String
  description : String
  industry : String
  tags : String
  location : String
  referred : String
deriving DecidableEq, Repr

/-- A persisted Project record. -/
structure Project where
  _id : String
  title : String
  description : String
  industry : String
  tags : String
  location : String
  referred : String
  created : Nat
  user : User
deriving DecidableEq, Repr

/-- An image attachment, keyed by project id and file name. -/
structure Image where
  projectId : String
  filename : String
  bytes : List Nat
deriving DecidableEq, Repr

/-- The entity store: Project records in insertion order and the stored
image attachments, most recent first. -/
structure Store where
  projects : List Project
  images : List Image
deriving DecidableEq, Repr

/-- Body of a response. -/
inductive Body
  | message (text : String)
  | record (p : Project)
  | records (ps : List Project)
  | file (bytes : List Nat)
deriving DecidableEq, Repr

/-- An HTTP response: status code and body. -/
structure Response where
  status : Nat
  body : Body
deriving DecidableEq, Repr

/-- The request object handed from middleware to middleware.  `path` lists
the segments of the request path (`/projects/42` is `["projects", "42"]`),
`user` is the session's user when the session is authenticated, `params`
holds the path parameters of the matched route and `project` is what
`projectByID` attaches. -/
structure Req where
  method : Method
  path : List String
  body : Payload
  file : List Nat
  user : Option User
  params : List (String × String)
  project : Option Project
deriving DecidableEq, Repr

/-- Conditions passed to `next(err)`. -/
inductive Failure
  | notFound
  | noSession
  | noProject
deriving DecidableEq, Repr

/-- What a middleware function does with a request: call `next()`, call
`next(err)`, or send a response (leaving the store as given). -/
inductive Outcome
  | next (req : Req)
  | fail (err : Failure)
  | respond (res : Response) (store : Store)
deriving DecidableEq, Repr

/-- How the dispatch of a request over a route table ends. -/
inductive Reply
  | sent (res : Response)
  | error (err : Failure)
  | unhandled
deriving DecidableEq, Repr

/-- Result of a dispatch: the reply, the store afterwards and the middleware
functions invoked, in order of invocation. -/
structure Result where
  reply : Reply
  store : Store
  trace : List Middleware
deriving DecidableEq, Repr

/-- What the application takes from outside the routes module and the
specification: the comment controller, whose behaviour the specification
leaves open, and the identifier and timestamp the persistence layer assigns
to the next inserted record. -/
structure Env where
  comment_create : Store → Req → Outcome
  comment_list : Store → Req → Outcome
  comment_delete : Store → Req → Outcome
  objectId : String
  now : Nat

/-! ## The route table of `projects.server.routes.js` -/

/-- One segment of a route path: literal text or a named parameter. -/
inductive Segment
  | lit (text : String)
  | param (name : String)
deriving DecidableEq, Repr

/-- A route: its path and its stack of layers, each registered for one
method, in registration order. -/
structure Route where
  path : List Segment
  stack : List (Method × Middleware)
deriving DecidableEq, Repr

open Method Middleware Segment

/-- The three `app.route(...)` declarations of the module, in source order;
`.put(a, b, c)` pushes the layers `a`, `b`, `c` for PUT in that order. -/
def routes : List Route :=
  [ ⟨[lit "projects"],
      [(GET, projects_list),
       (POST, users_requiresLogin), (POST, projects_create)]⟩,
    ⟨[lit "projects", param "projectId"],
      [(GET, projects_read),
       (PUT, users_requiresLogin), (PUT, projects_hasAuthorization), (PUT, projects_update),
       (DELETE, users_requiresLogin), (DELETE, projects_hasAuthorization),
       (DELETE, projects_delete)]⟩,
    ⟨[lit "projects", param "projectId", lit "comment"],
      [(POST, comment_create),
       (GET, comment_list),
       (PUT, comment_delete)]⟩ ]

/-- The binding `app.param('projectId', projects.projectByID)`. -/
def params : List (String × Middleware) :=
  [("projectId", projects_projectByID)]

/-- The middleware chain a route runs for a method. -/
def Route.chain (r : Route) (m : Method) : List Middleware :=
  (r.stack.filter (fun l => l.1 = m)).map (fun l => l.2)

/-- Names of the path parameters of a route. -/
def Route.keys (r : Route) : List String :=
  r.path.filterMap (fun s => match s with
    | lit _ => none
    | param k => some k)

/-- Whether the route has a layer for the method. -/
def Route.handlesMethod (r : Route) (m : Method) : Bool :=
  r.stack.any (fun l => l.1 = m)

/-! ## Controllers -/

/-- The record with the given id, as `findById` of the persistence layer. -/
def Store.findById (store : Store) (id : String) : Option Project :=
  store.projects.find? (fun p => p._id = id)

/-- The bytes stored under a project id and file name. -/
def Store.findImage (store : Store) (projectId filename : String) : Option (List Nat) :=
  (store.images.find? (fun i => i.projectId = projectId ∧ i.filename = filename)).map
    (fun i => i.bytes)

/-- Modelled from the spec: `users.requiresLogin` of the users controller,
which "fails the request before the handler if no session", with status 401
and message "User is not logged in". -/
def users.requiresLogin (store : Store) (req : Req) : Outcome :=
  match req.user with
  | some _ => .next req
  | none => .respond ⟨401, .message "User is not logged in"⟩ store

/-- Modelled from the spec: `projects.hasAuthorization` of the projects
controller, which "fails if the session's user does not own the resolved
Project", the Forbidden condition with status 403 (the specification fixes no
message text for it). -/
def projects.hasAuthorization (store : Store) (req : Req) : Outcome :=
  match req.user, req.project with
  | some u, some p =>
    if p.user = u then .next req
    else .respond ⟨403, .message "User is not authorized"⟩ store
  | _, _ => .respond ⟨403, .message "User is not authorized"⟩ store

/-- Modelled from the spec: `projects.projectByID` of the projects
controller, which "resolves the id to a record before the verb-specific
handler runs, and fails fast with a not found condition if resolution
fails". -/
def projects.projectByID (store : Store) (req : Req) (id : String) : Outcome :=
  match store.findById id with
  | some p => .next { req with project := some p }
  | none => .fail .notFound

/-- Modelled from the spec: `projects.list` of the projects controller,
which "returns all Project records as an ordered sequence", in insertion
order. -/
def projects.list (store : Store) : Outcome :=
  .respond ⟨200, .records store.projects⟩ store

/-- The record a payload gives rise to. -/
def Project.ofPayload (id : String) (now : Nat) (b : Payload) (owner : User) : Project :=
  ⟨id, b.title, b.description, b.industry, b.tags, b.location, b.referred, now, owner⟩

/-- Modelled from the spec: `projects.create` of the projects controller,
which "validates title is non-empty (else ... HTTP 400, message Please fill
Project name)" and "on success, persists a new Project owned by
authenticatedUser, returns the created record including its assigned id". -/
def projects.create (env : Env) (store : Store) (payload : Payload)
    (authenticatedUser : User) : Outcome :=
  if payload.title = "" then
    .respond ⟨400, .message "Please fill Project name"⟩ store
  else
    let p := Project.ofPayload env.objectId env.now payload authenticatedUser
    .respond ⟨200, .record p⟩ { store with projects := store.projects ++ [p] }

/-- Modelled from the spec: `projects.read` of the projects controller,
which "returns the record" resolved by the param-binding step. -/
def projects.read (store : Store) (project : Project) : Outcome :=
  .respond ⟨200, .record project⟩ store

/-- The record after an update with the payload: id, creation time and owner
stay. -/
def Project.update (p : Project) (b : Payload) : Project :=
  ⟨p._id, b.title, b.description, b.industry, b.tags, b.location, b.referred,
    p.created, p.user⟩

/-- Modelled from the spec: `projects.update` of the projects controller,
which "persists changed fields; returns the updated record"; the update
"fails if [title is] empty or missing". -/
def projects.update (store : Store) (project : Project) (payload : Payload) : Outcome :=
  if payload.title = "" then
    .respond ⟨400, .message "Please fill Project name"⟩ store
  else
    let p := project.update payload
    .respond ⟨200, .record p⟩
      { store with projects := store.projects.map (fun q => if q._id = p._id then p else q) }

/-- Modelled from the spec: `projects.delete` of the projects controller,
which "removes the record; returns the removed record's id". -/
def projects.delete (store : Store) (project : Project) : Outcome :=
  .respond ⟨200, .record project⟩
    { store with projects := store.projects.filter (fun q => q._id ≠ project._id) }

/-- Modelled from the spec: the image-store handler of the image attachment
handler, absent from the routes module, which "stores the file content
associated with that key pair, and responds success". -/
def image.store (store : Store) (projectId filename : String) (bytes : List Nat) : Outcome :=
  .respond ⟨200, .message "OK"⟩
    { store with images := ⟨projectId, filename, bytes⟩ :: store.images }

/-- Modelled from the spec: the image-fetch handler of the image attachment
handler, absent from the routes module: "a subsequent retrieval by the same
{projectId, filename} must return the previously stored bytes with a success
status". -/
def image.fetch (store : Store) (projectId filename : String) : Outcome :=
  match store.findImage projectId filename with
  | some bytes => .respond ⟨200, .file bytes⟩ store
  | none => .fail .notFound

/-- Calling a middleware function on the request.  `arg` is the extra
argument Express passes to a parameter callback (the parameter's value).
The controller functions take what they need from the request object. -/
def Middleware.call (env : Env) (mw : Middleware) (arg : Option String) (store : Store)
    (req : Req) : Outcome :=
  match mw with
  | users_requiresLogin => users.requiresLogin store req
  | projects_hasAuthorization => projects.hasAuthorization store req
  | projects_projectByID =>
    match arg with
    | some id => projects.projectByID store req id
    | none => .fail .notFound
  | projects_list => projects.list store
  | projects_create =>
    match req.user with
    | some u => projects.create env store req.body u
    | none => .fail .noSession
  | projects_read =>
    match req.project with
    | some p => projects.read store p
    | none => .fail .noProject
  | projects_update =>
    match req.project with
    | some p => projects.update store p req.body
    | none => .fail .noProject
  | projects_delete =>
    match req.project with
    | some p => projects.delete store p
    | none => .fail .noProject
  | comment_create => env.comment_create store req
  | comment_list => env.comment_list store req
  | comment_delete => env.comment_delete store req
  | image_store =>
    match req.params.lookup "projectId", req.params.lookup "filename" with
    | some pid, some name => image.store store pid name req.file
    | _, _ => .fail .notFound
  | image_fetch =>
    match req.params.lookup "projectId", req.params.lookup "filename" with
    | some pid, some name => image.fetch store pid name
    | _, _ => .fail .notFound

/-! ## Express dispatch -/

/-- Matching a route path against the segments of a request path: literal
segments must agree, a parameter captures the segment in its place. -/
def matchPath : List Segment → List String → Option (List (String × String))
  | [], [] => some []
  | lit s :: ps, x :: xs => if s = x then matchPath ps xs else none
  | param k :: ps, x :: xs => (matchPath ps xs).map (fun cs => (k, x) :: cs)
  | _, _ => none

/-- Either the request is finished, or it goes on with the given request
object, parameter cache and trace. -/
inductive Step
  | done (r : Result)
  | goOn (req : Req) (called : List (String × String)) (trace : List Middleware)
deriving DecidableEq, Repr

/-- The router's `process_params`: for every captured parameter with a bound
callback, call it with the captured value, unless it was already called with
that value for this request.  A callback that does not call `next()` ends the
request. -/
def processParams (env : Env) (bound : List (String × Middleware)) (store : Store) :
    List (String × String) → Req → List (String × String) → List Middleware → Step
  | [], req, called, trace => .goOn req called trace
  | (k, v) :: cs, req, called, trace =>
    match bound.lookup k with
    | none => processParams env bound store cs req called trace
    | some mw =>
      if (k, v) ∈ called then processParams env bound store cs req called trace
      else
        match mw.call env (some v) store req with
        | .next req' => processParams env bound store cs req' ((k, v) :: called) (trace ++ [mw])
        | .fail err => .done ⟨.error err, store, trace ++ [mw]⟩
        | .respond res store' => .done ⟨.sent res, store', trace ++ [mw]⟩

/-- The route's `dispatch`: run the layers registered for the method in
order; `next()` moves to the following layer, `next(err)` skips the rest, a
response ends the request.  Running off the end of the stack hands the
request back to the router. -/
def runStack (env : Env) (m : Method) (store : Store) :
    List (Method × Middleware) → Req → List (String × String) → List Middleware → Step
  | [], req, called, trace => .goOn req called trace
  | (m', mw) :: rest, req, called, trace =>
    if m' = m then
      match mw.call env none store req with
      | .next req' => runStack env m store rest req' called (trace ++ [mw])
      | .fail err => .done ⟨.error err, store, trace ++ [mw]⟩
      | .respond res store' => .done ⟨.sent res, store', trace ++ [mw]⟩
    else runStack env m store rest req called trace

/-- The router: take the routes in registration order; a route whose path
matches and that handles the method gets its parameters processed and is
then dispatched; a request no route finishes is left unhandled. -/
def dispatchFrom (env : Env) (bound : List (String × Middleware)) (store : Store) :
    List Route → Req → List (String × String) → List Middleware → Result
  | [], _, _, trace => ⟨.unhandled, store, trace⟩
  | r :: rs, req, called, trace =>
    match matchPath r.path req.path with
    | none => dispatchFrom env bound store rs req called trace
    | some captured =>
      if r.handlesMethod req.method then
        match processParams env bound store captured { req with params := captured }
            called trace with
        | .done res => res
        | .goOn req' called' trace' =>
          match runStack env req.method store r.stack req' called' trace' with
          | .done res => res
          | .goOn req'' called'' trace'' =>
            dispatchFrom env bound store rs req'' called'' trace''
      else dispatchFrom env bound store rs req called trace

/-- Dispatch of a request over a route table with its parameter bindings. -/
def dispatch (env : Env) (table : List Route) (bound : List (String × Middleware))
    (store : Store) (req : Req) : Result :=
  dispatchFrom env bound store table req [] []

/-- A request as a client sends it: no path parameters captured and no
project attached yet. -/
def request (m : Method) (path : List String) (body : Payload) (file : List Nat)
    (user : Option User) : Req :=
  ⟨m, path, body, file, user, [], none⟩

/-- The application of the routes module: its route table with its
parameter binding. -/
def app (env : Env) (store : Store) (req : Req) : Result :=
  dispatch env routes params store req

/-! ## Sample data -/

/-- A sample environment: a comment controller that answers every request
with status 200, and a fixed next identifier and timestamp. -/
def Env.sample : Env :=
  ⟨fun s _ => .respond ⟨200, .message "comment created"⟩ s,
   fun s _ => .respond ⟨200, .message "comments"⟩ s,
   fun s _ => .respond ⟨200, .message "comment deleted"⟩ s,
   "p2", 7⟩

/-- The payload of the test suite. -/
def Payload.sample : Payload := ⟨"Project Name", "desc", "test ind", "", "", ""⟩

/-- A project owned by user `u1`. -/
def Project.sample : Project :=
  ⟨"p1", "Project Name", "desc", "test ind", "", "", "", 3, ⟨"u1"⟩⟩

/-- A store holding the sample project and no image. -/
def Store.sample : Store := ⟨[Project.sample], []⟩

/-! ## Traces of the application -/

/-- A record of the store is found by its id (possibly as an earlier record
with the same id). -/
theorem findById_isSome_of_mem (store : Store) (p : Project) (h : p ∈ store.projects) :
    ∃ q, store.findById p._id = some q := by
  unfold Store.findById
  cases hf : store.projects.find? (fun q => q._id = p._id) with
  | some q => exact ⟨q, rfl⟩
  | none =>
    rw [List.find?_eq_none] at hf
    have := hf p h
    simp at this

/-- Trace of a request to `/projects`. -/
theorem app_projects_trace (env : Env) (store : Store) (body : Payload)
    (file : List Nat) (user : Option User) (m : Method) :
    (app env store (request m ["projects"] body file user)).trace
      = (match m with
         | GET => [projects_list]
         | POST =>
           match user with
           | none => [users_requiresLogin]
           | some _ => [users_requiresLogin, projects_create]
         | _ => []) := by
  cases m <;> cases user <;> (try by_cases ht : body.title = "") <;>
    simp [app, dispatch, dispatchFrom, routes, params, request, matchPath,
      Route.handlesMethod, processParams, runStack, Middleware.call,
      users.requiresLogin, projects.list, projects.create, List.lookup, *]

/-- Trace of a GET, PUT or DELETE request to `/projects/:projectId`. -/
theorem app_project_trace (env : Env) (store : Store) (id : String) (body : Payload)
    (file : List Nat) (user : Option User) (m : Method) (hm : m ≠ POST) :
    (app env store (request m ["projects", id] body file user)).trace
      = (match store.findById id with
         | none => [projects_projectByID]
         | some p =>
           match m with
           | GET => [projects_projectByID, projects_read]
           | POST => []
           | PUT =>
             match user with
             | none => [projects_projectByID, users_requiresLogin]
             | some u =>
               if p.user = u then
                 [projects_projectByID, users_requiresLogin, projects_hasAuthorization,
                   projects_update]
               else [projects_projectByID, users_requiresLogin, projects_hasAuthorization]
           | DELETE =>
             match user with
             | none => [projects_projectByID, users_requiresLogin]
             | some u =>
               if p.user = u then
                 [projects_projectByID, users_requiresLogin, projects_hasAuthorization,
                   projects_delete]
               else [projects_projectByID, users_requiresLogin, projects_hasAuthorization]) := by
  cases m
  case POST => exact absurd rfl hm
  all_goals
    cases h : store.findById id with
    | none =>
      simp [app, dispatch, dispatchFrom, routes, params, request, matchPath,
        Route.handlesMethod, processParams, runStack, Middleware.call, projects.projectByID,
        List.lookup, h]
    | some p =>
      cases user with
      | none =>
        simp [app, dispatch, dispatchFrom, routes, params, request, matchPath,
          Route.handlesMethod, processParams, runStack, Middleware.call, projects.projectByID,
          users.requiresLogin, projects.read, List.lookup, h]
      | some u =>
        by_cases hu : p.user = u <;> by_cases ht : body.title = "" <;>
        simp [app, dispatch, dispatchFrom, routes, params, request, matchPath,
          Route.handlesMethod, processParams, runStack, Middleware.call, projects.projectByID,
          users.requiresLogin, projects.hasAuthorization, projects.read, projects.update,
          projects.delete, List.lookup, h, hu, ht]

/-- A POST to `/projects/:projectId` runs no middleware of the table. -/
theorem app_project_post_trace (env : Env) (store : Store) (id : String) (body : Payload)
    (file : List Nat) (user : Option User) :
    (app env store (request POST ["projects", id] body file user)).trace = [] := by
  simp [app, dispatch, dispatchFrom, routes, request, matchPath, Route.handlesMethod]

/-- Trace of a POST, GET or PUT request to `/projects/:projectId/comment`,
whatever the comment controller does. -/
theorem app_comment_trace (env : Env) (store : Store) (id : String) (body : Payload)
    (file : List Nat) (user : Option User) (m : Method) (handler : Middleware)
    (hm : (m, handler) ∈ [(POST, comment_create), (GET, comment_list), (PUT, comment_delete)]) :
    (app env store (request m ["projects", id, "comment"] body file user)).trace
      = (match store.findById id with
         | some _ => [projects_projectByID, handler]
         | none => [projects_projectByID]) := by
  simp only [List.mem_cons, List.mem_singleton, List.not_mem_nil, or_false, Prod.mk.injEq] at hm
  rcases hm with ⟨rfl, rfl⟩ | ⟨rfl, rfl⟩ | ⟨rfl, rfl⟩
  all_goals
    cases h : store.findById id
    · simp [app, dispatch, dispatchFrom, routes, params, request, matchPath,
        Route.handlesMethod, processParams, runStack, Middleware.call, projects.projectByID,
        List.lookup, h]
    · simp [app, dispatch, dispatchFrom, routes, params, request, matchPath,
        Route.handlesMethod, processParams, runStack, Middleware.call, projects.projectByID,
        List.lookup, h]
      split <;> rename_i heq <;> split at heq <;> simp at heq <;>
        (try obtain ⟨h1, h2, h3⟩ := heq) <;> subst_vars <;> simp

/-- A DELETE to `/projects/:projectId/comment` runs no middleware of the
table. -/
theorem app_comment_delete_trace (env : Env) (store : Store) (id : String) (body : Payload)
    (file : List Nat) (user : Option User) :
    (app env store (request DELETE ["projects", id, "comment"] body file user)).trace = [] := by
  simp [app, dispatch, dispatchFrom, routes, request, matchPath, Route.handlesMethod]

/-! ## Creation and deletion without a session -/

/-- Claim C1: a POST to /projects without an authenticated session is answered
with status 401 by `requiresLogin`; `projects.create` is not invoked and the
store is left as it was. -/
theorem C1_create_requires_login (env : Env) (store : Store) (body : Payload)
    (file : List Nat) :
    (app env store (request POST ["projects"] body file none)).reply
        = .sent ⟨401, .message "User is not logged in"⟩
      ∧ projects_create ∉ (app env store (request POST ["projects"] body file none)).trace
      ∧ (app env store (request POST ["projects"] body file none)).store = store := by
  simp [app, dispatch, dispatchFrom, routes, params, request, matchPath, Route.handlesMethod,
    processParams, runStack, Middleware.call, users.requiresLogin]

/-- Claim C2: for a project of the store, a DELETE to /projects/:projectId
without an authenticated session is answered with status 401 and message
"User is not logged in"; neither `hasAuthorization` nor `projects.delete` is
invoked, and a following GET /projects, from any session, still lists the
project. -/
theorem C2_delete_requires_login (env : Env) (store : Store) (p : Project) (body : Payload)
    (file : List Nat) (h : p ∈ store.projects) :
    (app env store (request DELETE ["projects", p._id] body file none)).reply
        = .sent ⟨401, .message "User is not logged in"⟩
      ∧ projects_hasAuthorization ∉
          (app env store (request DELETE ["projects", p._id] body file none)).trace
      ∧ projects_delete ∉
          (app env store (request DELETE ["projects", p._id] body file none)).trace
      ∧ ∀ (body' : Payload) (file' : List Nat) (user' : Option User),
          ∃ ps, (app env (app env store (request DELETE ["projects", p._id] body file none)).store
                  (request GET ["projects"] body' file' user')).reply = .sent ⟨200, .records ps⟩
            ∧ p ∈ ps := by
  obtain ⟨q, hq⟩ := findById_isSome_of_mem store p h
  simp [app, dispatch, dispatchFrom, routes, params, request, matchPath, Route.handlesMethod,
    processParams, runStack, Middleware.call, users.requiresLogin, projects.projectByID,
    projects.list, List.lookup, hq, h]

/-- Witness for C2: the sample project in the sample store. -/
theorem C2_delete_requires_login_witness :
    Project.sample ∈ Store.sample.projects
    ∧ (app Env.sample Store.sample
          (request DELETE ["projects", Project.sample._id] Payload.sample [] none)).reply
        = .sent ⟨401, .message "User is not logged in"⟩ :=
  ⟨by decide,
   (C2_delete_requires_login Env.sample Store.sample Project.sample Payload.sample []
      (by decide)).1⟩

/-! ## The update chain -/

/-- Claim C3: the chain of PUT /projects/:projectId is `requiresLogin`, then
`hasAuthorization`, then `projects.update`.  With the project resolved,
`update` runs exactly when the session's user is the owner; a request without
a session stops at `requiresLogin` with 401, and a session of another user
stops at `hasAuthorization` with 403. -/
theorem C3_update_chain (env : Env) (store : Store) (id : String) (p : Project)
    (body : Payload) (file : List Nat) (user : Option User)
    (h : store.findById id = some p) :
    (routes.filter (fun r => r.path = [lit "projects", param "projectId"])).map
        (fun r => r.chain PUT)
      = [[users_requiresLogin, projects_hasAuthorization, projects_update]]
    ∧ (projects_update ∈ (app env store (request PUT ["projects", id] body file user)).trace
        ↔ user = some p.user)
    ∧ (user = none →
        (app env store (request PUT ["projects", id] body file user)).reply
            = .sent ⟨401, .message "User is not logged in"⟩
          ∧ (app env store (request PUT ["projects", id] body file user)).trace
            = [projects_projectByID, users_requiresLogin])
    ∧ (∀ u, user = some u → u ≠ p.user →
        (app env store (request PUT ["projects", id] body file user)).reply
            = .sent ⟨403, .message "User is not authorized"⟩
          ∧ (app env store (request PUT ["projects", id] body file user)).trace
            = [projects_projectByID, users_requiresLogin, projects_hasAuthorization]) := by
  refine ⟨by decide, ?_, ?_, ?_⟩
  · cases user with
    | none =>
      simp [app, dispatch, dispatchFrom, routes, params, request, matchPath,
        Route.handlesMethod, processParams, runStack, Middleware.call, users.requiresLogin,
        projects.projectByID, List.lookup, h]
    | some u =>
      by_cases hu : p.user = u
      · by_cases ht : body.title = "" <;>
        simp [app, dispatch, dispatchFrom, routes, params, request, matchPath,
          Route.handlesMethod, processParams, runStack, Middleware.call, users.requiresLogin,
          projects.projectByID, projects.hasAuthorization, projects.update, List.lookup, h, hu, ht]
      · have hu' : ¬ u = p.user := fun e => hu e.symm
        simp [app, dispatch, dispatchFrom, routes, params, request, matchPath,
          Route.handlesMethod, processParams, runStack, Middleware.call, users.requiresLogin,
          projects.projectByID, projects.hasAuthorization, projects.update, List.lookup, h, hu, hu']
  · rintro rfl
    simp [app, dispatch, dispatchFrom, routes, params, request, matchPath,
      Route.handlesMethod, processParams, runStack, Middleware.call, users.requiresLogin,
      projects.projectByID, List.lookup, h]
  · rintro u rfl hu
    have hu' : ¬ p.user = u := fun e => hu e.symm
    simp [app, dispatch, dispatchFrom, routes, params, request, matchPath,
      Route.handlesMethod, processParams, runStack, Middleware.call, users.requiresLogin,
      projects.projectByID, projects.hasAuthorization, List.lookup, h, hu']

/-- Witness for C3: user `u2` tries to update the sample project of `u1`. -/
theorem C3_update_chain_witness :
    Store.sample.findById "p1" = some Project.sample
    ∧ (app Env.sample Store.sample
          (request PUT ["projects", "p1"] Payload.sample [] (some ⟨"u2"⟩))).reply
        = .sent ⟨403, .message "User is not authorized"⟩
    ∧ (app Env.sample Store.sample
          (request PUT ["projects", "p1"] Payload.sample [] (some ⟨"u2"⟩))).trace
        = [projects_projectByID, users_requiresLogin, projects_hasAuthorization] :=
  ⟨by decide,
   (C3_update_chain Env.sample Store.sample "p1" Project.sample Payload.sample []
      (some ⟨"u2"⟩) (by decide)).2.2.2 ⟨"u2"⟩ rfl (by decide)⟩

/-! ## Creation with an empty title -/

/-- Counterexample to C4: a POST to /projects with an empty title and no
session is answered 401 by `requiresLogin`, not 400, and `projects.create`
with its validation is never reached. -/
theorem C4_counterexample :
    app Env.sample ⟨[], []⟩
        (request POST ["projects"] ⟨"", "desc", "test ind", "", "", ""⟩ [] none)
      = ⟨.sent ⟨401, .message "User is not logged in"⟩, ⟨[], []⟩, [users_requiresLogin]⟩ := by
  decide

/-- Claim C4, amended: a POST to /projects with an empty title from an
authenticated session, whoever the user, fails with status 400 and message
"Please fill Project name" and persists nothing; without a session the same
request fails with 401 at `requiresLogin`, before any validation. -/
theorem C4_empty_title (env : Env) (store : Store) (body : Payload) (file : List Nat)
    (h : body.title = "") :
    (∀ u : User, app env store (request POST ["projects"] body file (some u))
        = ⟨.sent ⟨400, .message "Please fill Project name"⟩, store,
            [users_requiresLogin, projects_create]⟩)
    ∧ app env store (request POST ["projects"] body file none)
        = ⟨.sent ⟨401, .message "User is not logged in"⟩, store, [users_requiresLogin]⟩ := by
  constructor
  · intro u
    simp [app, dispatch, dispatchFrom, routes, params, request, matchPath, Route.handlesMethod,
      processParams, runStack, Middleware.call, users.requiresLogin, projects.create, h]
  · simp [app, dispatch, dispatchFrom, routes, params, request, matchPath, Route.handlesMethod,
      processParams, runStack, Middleware.call, users.requiresLogin]

/-- Witness for the amended C4: the test's payload with its title emptied,
sent by user `u1`. -/
theorem C4_empty_title_witness :
    (⟨"", "desc", "test ind", "", "", ""⟩ : Payload).title = ""
    ∧ app Env.sample Store.sample
        (request POST ["projects"] ⟨"", "desc", "test ind", "", "", ""⟩ [] (some ⟨"u1"⟩))
      = ⟨.sent ⟨400, .message "Please fill Project name"⟩, Store.sample,
          [users_requiresLogin, projects_create]⟩ :=
  ⟨rfl,
   (C4_empty_title Env.sample Store.sample ⟨"", "desc", "test ind", "", "", ""⟩ [] rfl).1
     ⟨"u1"⟩⟩

/-! ## Reads without a session -/

/-- Claim C5: GET /projects and GET /projects/:projectId have no guard in
their chains.  Whatever the session, GET /projects runs `projects.list` and
answers 200 with the records of the store, and GET /projects/:projectId runs
`projects.read` right after the parameter resolution and answers 200 with the
resolved record (an id that does not resolve ends at `projectByID`). -/
theorem C5_public_reads (env : Env) (store : Store) (id : String) (body : Payload)
    (file : List Nat) (user : Option User) :
    (routes.filter (fun r => r.path = [lit "projects"])).map (fun r => r.chain GET)
        = [[projects_list]]
    ∧ (routes.filter (fun r => r.path = [lit "projects", param "projectId"])).map
          (fun r => r.chain GET)
        = [[projects_read]]
    ∧ app env store (request GET ["projects"] body file user)
        = ⟨.sent ⟨200, .records store.projects⟩, store, [projects_list]⟩
    ∧ app env store (request GET ["projects", id] body file user)
        = (match store.findById id with
           | some p => ⟨.sent ⟨200, .record p⟩, store, [projects_projectByID, projects_read]⟩
           | none => ⟨.error .notFound, store, [projects_projectByID]⟩) := by
  refine ⟨by decide, by decide, ?_, ?_⟩
  · simp [app, dispatch, dispatchFrom, routes, params, request, matchPath, Route.handlesMethod,
      processParams, runStack, Middleware.call, projects.list]
  · cases h : store.findById id <;>
    simp [app, dispatch, dispatchFrom, routes, params, request, matchPath, Route.handlesMethod,
      processParams, runStack, Middleware.call, projects.projectByID, projects.read,
      List.lookup, h]

/-! ## Parameter resolution -/

/-- Claim C6: when the route matching a request captures `projectId` (the
routes /projects/:projectId and /projects/:projectId/comment), `projectByID`
is the first middleware invoked and is invoked exactly once; when the id does
not resolve, nothing else of the chain runs.  A request to /projects never
invokes `projectByID`. -/
theorem C6_param_resolution (env : Env) (store : Store) (m : Method) (path : List String)
    (body : Payload) (file : List Nat) (user : Option User) :
    (∀ r ∈ routes, ∀ captured id, matchPath r.path path = some captured →
        r.handlesMethod m = true → captured.lookup "projectId" = some id →
        (app env store (request m path body file user)).trace.head? = some projects_projectByID
        ∧ (app env store (request m path body file user)).trace.count projects_projectByID = 1
        ∧ (store.findById id = none →
            (app env store (request m path body file user)).trace = [projects_projectByID]))
    ∧ (path = ["projects"] →
        projects_projectByID ∉ (app env store (request m path body file user)).trace) := by
  constructor
  · intro r hr captured id hmatch hmeth hid
    simp only [routes, List.mem_cons, List.mem_singleton, List.not_mem_nil, or_false] at hr
    rcases hr with rfl | rfl | rfl
    · rcases path with _ | ⟨a, _ | ⟨b, rest⟩⟩ <;> simp [matchPath] at hmatch
      obtain ⟨-, rfl⟩ := hmatch
      simp [List.lookup] at hid
    · rcases path with _ | ⟨a, _ | ⟨b, _ | ⟨c, rest⟩⟩⟩ <;> simp [matchPath] at hmatch
      obtain ⟨rfl, rfl⟩ := hmatch
      simp [List.lookup] at hid
      subst hid
      have hm : m ≠ POST := by
        rintro rfl
        simp [Route.handlesMethod] at hmeth
      rw [app_project_trace env store b body file user m hm]
      cases h : store.findById b with
      | none => simp
      | some p =>
        cases m <;> cases user <;> simp at hm ⊢ <;> split <;> simp
    · rcases path with _ | ⟨a, _ | ⟨b, _ | ⟨c, _ | ⟨d, rest⟩⟩⟩⟩ <;> simp [matchPath] at hmatch
      obtain ⟨rfl, rfl, rfl⟩ := hmatch
      simp [List.lookup] at hid
      subst hid
      cases m
      case DELETE => simp [Route.handlesMethod] at hmeth
      case GET =>
        rw [app_comment_trace env store b body file user GET comment_list (by decide)]
        cases h : store.findById b <;> simp
      case POST =>
        rw [app_comment_trace env store b body file user POST comment_create (by decide)]
        cases h : store.findById b <;> simp
      case PUT =>
        rw [app_comment_trace env store b body file user PUT comment_delete (by decide)]
        cases h : store.findById b <;> simp
  · rintro rfl
    rw [app_projects_trace]
    cases m <;> cases user <;> simp

/-- Witness for C6: a DELETE of a project that is not in the sample store
ends at `projectByID`. -/
theorem C6_param_resolution_witness :
    (app Env.sample Store.sample
        (request DELETE ["projects", "p9"] Payload.sample [] (some ⟨"u1"⟩))).trace
      = [projects_projectByID] :=
  ((C6_param_resolution Env.sample Store.sample DELETE ["projects", "p9"] Payload.sample []
      (some ⟨"u1"⟩)).1
    ⟨[lit "projects", param "projectId"],
      [(GET, projects_read),
       (PUT, users_requiresLogin), (PUT, projects_hasAuthorization), (PUT, projects_update),
       (DELETE, users_requiresLogin), (DELETE, projects_hasAuthorization),
       (DELETE, projects_delete)]⟩
    (by decide) [("projectId", "p9")] "p9" (by decide) (by decide) (by decide)).2.2 (by decide)

/-! ## Image attachments -/

/-- Claim C7, the code at the failing input: the route table declares no route
for /projects/img/:projectId/:filename.  For every method, projectId and
filename, stored project or not, such a request matches no route of the
module: no middleware is invoked (no image handler, and not `projectByID`
either), the store is unchanged and the request is left unhandled, where the
test suite posts to and gets /projects/img/<id>/logo.jpg expecting status
200. -/
theorem C7_image_routes_missing (env : Env) (store : Store) (m : Method)
    (projectId filename : String) (body : Payload) (file : List Nat) (user : Option User) :
    app env store (request m ["projects", "img", projectId, filename] body file user)
      = ⟨.unhandled, store, []⟩ := by
  simp [app, dispatch, dispatchFrom, routes, request, matchPath]

/-! ## Comment routes -/

/-- Claim C8: the route /projects/:projectId/comment maps POST to
`comment.create`, GET to `comment.list` and PUT to `comment.delete`, each
chain holding the handler alone.  Whatever the session and whatever the
comment controller does, neither `requiresLogin` nor `hasAuthorization` is
invoked, and the handler is invoked right after `projectByID` has resolved
the project. -/
theorem C8_comment_routes (env : Env) (store : Store) (id : String) (body : Payload)
    (file : List Nat) (user : Option User) (m : Method) (handler : Middleware)
    (hm : (m, handler) ∈ [(POST, comment_create), (GET, comment_list), (PUT, comment_delete)]) :
    (routes.filter (fun r => r.path = [lit "projects", param "projectId", lit "comment"])).map
        (fun r => r.chain m)
      = [[handler]]
    ∧ users_requiresLogin ∉
        (app env store (request m ["projects", id, "comment"] body file user)).trace
    ∧ projects_hasAuthorization ∉
        (app env store (request m ["projects", id, "comment"] body file user)).trace
    ∧ (app env store (request m ["projects", id, "comment"] body file user)).trace
        = (match store.findById id with
           | some _ => [projects_projectByID, handler]
           | none => [projects_projectByID]) := by
  rw [app_comment_trace env store id body file user m handler hm]
  simp only [List.mem_cons, List.mem_singleton, List.not_mem_nil, or_false, Prod.mk.injEq] at hm
  rcases hm with ⟨rfl, rfl⟩ | ⟨rfl, rfl⟩ | ⟨rfl, rfl⟩ <;>
    refine ⟨by decide, ?_⟩ <;> cases store.findById id <;> simp

/-- Witness for C8: a PUT on the comments of the sample project without a
session reaches `comment.delete`. -/
theorem C8_comment_routes_witness :
    (PUT, comment_delete) ∈ [(POST, comment_create), (GET, comment_list), (PUT, comment_delete)]
    ∧ (app Env.sample Store.sample
          (request PUT ["projects", "p1", "comment"] Payload.sample [] none)).trace
        = [projects_projectByID, comment_delete] :=
  ⟨by decide,
   (C8_comment_routes Env.sample Store.sample "p1" Payload.sample [] none PUT comment_delete
      (by decide)).2.2.2⟩

/-! ## Create then list -/

/-- Claim C9: starting from a store without projects, a POST to /projects with
a non-empty title from an authenticated user answers 200, and a following GET
/projects, from any session, answers 200 with a list whose first record
carries the submitted title and industry unchanged and the caller's id as
`user._id`. -/
theorem C9_create_then_list (env : Env) (images : List Image) (body : Payload) (file : List Nat)
    (u : User) (body' : Payload) (file' : List Nat) (user' : Option User)
    (h : body.title ≠ "") :
    ∃ p, (app env ⟨[], images⟩ (request POST ["projects"] body file (some u))).reply
          = .sent ⟨200, .record p⟩
      ∧ ∃ q rest,
          (app env (app env ⟨[], images⟩ (request POST ["projects"] body file (some u))).store
            (request GET ["projects"] body' file' user')).reply
            = .sent ⟨200, .records (q :: rest)⟩
          ∧ q.title = body.title ∧ q.industry = body.industry ∧ q.user._id = u._id := by
  simp [app, dispatch, dispatchFrom, routes, params, request, matchPath, Route.handlesMethod,
    processParams, runStack, Middleware.call, users.requiresLogin, projects.create,
    projects.list, Project.ofPayload, h]

/-- Witness for C9: the title with special characters of the test suite. -/
theorem C9_create_then_list_witness :
    (⟨"#$%^&is the name of the game", "desc", "test ind", "", "", ""⟩ : Payload).title ≠ ""
    ∧ ∃ q rest,
        (app Env.sample
          (app Env.sample ⟨[], []⟩
            (request POST ["projects"] ⟨"#$%^&is the name of the game", "desc", "test ind",
              "", "", ""⟩ [] (some ⟨"u1"⟩))).store
          (request GET ["projects"] Payload.sample [] none)).reply
          = .sent ⟨200, .records (q :: rest)⟩
        ∧ q.title = "#$%^&is the name of the game" ∧ q.industry = "test ind"
        ∧ q.user._id = "u1" :=
  ⟨by decide,
   (C9_create_then_list Env.sample [] ⟨"#$%^&is the name of the game", "desc", "test ind",
      "", "", ""⟩ [] ⟨"u1"⟩ Payload.sample [] none (by decide)).choose_spec.2⟩

/-! ## The authorization invariant of the table -/

/-- Claim C10: in the route table, every chain that contains
`hasAuthorization` belongs to a route with the `:projectId` segment and has
`requiresLogin` immediately before `hasAuthorization`; every chain that
contains `projects.create`, `projects.update` or `projects.delete` starts with
`requiresLogin`.  In every dispatch that invokes `hasAuthorization`, the
session is authenticated, the project has been resolved, and `projectByID`
and `requiresLogin` have run just before. -/
theorem C10_authorization_invariant (env : Env) (store : Store) (m : Method)
    (path : List String) (body : Payload) (file : List Nat) (user : Option User) :
    (∀ r ∈ routes, ∀ k : Method, projects_hasAuthorization ∈ r.chain k →
        "projectId" ∈ r.keys
        ∧ ∃ before after,
            r.chain k = before ++ [users_requiresLogin, projects_hasAuthorization] ++ after)
    ∧ (∀ r ∈ routes, ∀ k : Method,
        (projects_create ∈ r.chain k ∨ projects_update ∈ r.chain k
          ∨ projects_delete ∈ r.chain k) →
        (r.chain k).head? = some users_requiresLogin)
    ∧ (projects_hasAuthorization ∈ (app env store (request m path body file user)).trace →
        ∃ u id p rest, user = some u ∧ path = ["projects", id] ∧ store.findById id = some p
          ∧ (app env store (request m path body file user)).trace
              = projects_projectByID :: users_requiresLogin :: projects_hasAuthorization :: rest) := by
  refine ⟨?_, ?_, ?_⟩
  · intro r hr k hk
    simp only [routes, List.mem_cons, List.mem_singleton, List.not_mem_nil, or_false] at hr
    rcases hr with rfl | rfl | rfl <;> cases k <;> simp [Route.chain] at hk
    · exact ⟨by decide, [], [projects_update], by decide⟩
    · exact ⟨by decide, [], [projects_delete], by decide⟩
  · intro r hr k hk
    simp only [routes, List.mem_cons, List.mem_singleton, List.not_mem_nil, or_false] at hr
    rcases hr with rfl | rfl | rfl <;> cases k <;> simp [Route.chain] at hk <;> decide
  · intro h
    rcases path with _ | ⟨a, _ | ⟨b, _ | ⟨c, _ | ⟨d, rest⟩⟩⟩⟩
    · simp [app, dispatch, dispatchFrom, routes, request, matchPath] at h
    · by_cases ha : "projects" = a
      · subst ha
        rw [app_projects_trace] at h
        cases m <;> cases user <;> simp at h
      · simp [app, dispatch, dispatchFrom, routes, request, matchPath, ha] at h
    · by_cases ha : "projects" = a
      · subst ha
        by_cases hm : m = POST
        · subst hm
          rw [app_project_post_trace] at h
          simp at h
        · rw [app_project_trace env store b body file user m hm] at h ⊢
          cases hf : store.findById b with
          | none => simp [hf] at h
          | some p =>
            cases user with
            | none => cases m <;> simp [hf] at h hm
            | some u =>
              refine ⟨u, b, p, ?_⟩
              cases m <;> simp [hf] at h hm ⊢ <;> split <;> simp
      · simp [app, dispatch, dispatchFrom, routes, request, matchPath, ha] at h
    · by_cases ha : "projects" = a
      · by_cases hc : "comment" = c
        · subst ha
          subst hc
          cases m with
          | DELETE =>
            rw [app_comment_delete_trace] at h
            simp at h
          | GET =>
            rw [app_comment_trace env store b body file user GET comment_list (by decide)] at h
            cases hf : store.findById b <;> simp [hf] at h
          | POST =>
            rw [app_comment_trace env store b body file user POST comment_create (by decide)] at h
            cases hf : store.findById b <;> simp [hf] at h
          | PUT =>
            rw [app_comment_trace env store b body file user PUT comment_delete (by decide)] at h
            cases hf : store.findById b <;> simp [hf] at h
        · simp [app, dispatch, dispatchFrom, routes, request, matchPath, ha, hc] at h
      · simp [app, dispatch, dispatchFrom, routes, request, matchPath, ha] at h
    · simp [app, dispatch, dispatchFrom, routes, request, matchPath] at h

/-- Witness for C10: the owner deletes the sample project; `hasAuthorization`
runs, after `projectByID` and `requiresLogin`. -/
theorem C10_authorization_invariant_witness :
    projects_hasAuthorization ∈
        (app Env.sample Store.sample
          (request DELETE ["projects", "p1"] Payload.sample [] (some ⟨"u1"⟩))).trace
    ∧ ∃ u id p rest, some (⟨"u1"⟩ : User) = some u ∧ ["projects", "p1"] = ["projects", id]
        ∧ Store.sample.findById id = some p
        ∧ (app Env.sample Store.sample
            (request DELETE ["projects", "p1"] Payload.sample [] (some ⟨"u1"⟩))).trace
          = projects_projectByID :: users_requiresLogin :: projects_hasAuthorization :: rest :=
  ⟨by decide,
   (C10_authorization_invariant Env.sample Store.sample DELETE ["projects", "p1"]
      Payload.sample [] (some ⟨"u1"⟩)).2.2 (by decide)⟩

end StartHub
